import Mathlib

/-!
Verification of the t-ccd particle simulator and its offline validator.

The Rust sources (simulator crate: `spatial.rs`, `detector.rs`, `solver.rs`;
validator crate: `comp.rs`, `missed_collision.rs`, `conservation.rs`,
`boundary.rs`) are shallowly embedded below.  Machine `f32` arithmetic is
modelled by exact rationals; the single transcendental primitive, the `f32`
square-root intrinsic, is threaded through as an oracle parameter
`sqrtf : Q → Q` so every definition stays executable.  Where a fact
genuinely depends on the oracle returning the exact square root at a
concrete input, that is stated as an explicit hypothesis.  IEEE special
values appear in exactly one checked routine (`check_conservation`, where a
division by zero can produce NaN or infinity); there the division is
embedded into a small extended-value type mirroring the IEEE outcomes.
-/

namespace TCcd

/-- 2-D vector over exact rationals, modelling `glam::Vec2`. -/
structure Vec2 where
  x : ℚ
  y : ℚ
deriving DecidableEq, Repr

instance : Add Vec2 := ⟨fun a b => ⟨a.x + b.x, a.y + b.y⟩⟩
instance : Sub Vec2 := ⟨fun a b => ⟨a.x - b.x, a.y - b.y⟩⟩

/-- Scalar multiplication `v * s` (glam's `Vec2 * f32`). -/
def Vec2.scale (v : Vec2) (s : ℚ) : Vec2 := ⟨v.x * s, v.y * s⟩

/-- Dot product (`glam::Vec2::dot`). -/
def Vec2.dot (a b : Vec2) : ℚ := a.x * b.x + a.y * b.y

/-- `glam::Vec2::length_squared`. -/
def Vec2.length_squared (v : Vec2) : ℚ := v.x * v.x + v.y * v.y

/-- `simulator/src/particle.rs`: the `Particle` struct (the `color` field is
opaque to the physics and omitted). -/
structure Particle where
  position : Vec2
  velocity : Vec2
  radius : ℚ
  mass : ℚ
deriving DecidableEq, Repr

instance : Inhabited Particle := ⟨⟨⟨0, 0⟩, ⟨0, 0⟩, 0, 0⟩⟩

/-- `engine/src/lib.rs`: the `Bounds` struct. -/
structure Bounds where
  width : ℚ
  height : ℚ
deriving DecidableEq, Repr

/-- `Bounds::half_extents`. -/
def Bounds.half_extents (b : Bounds) : ℚ × ℚ := (b.width / 2, b.height / 2)

/-- `validate/src/miscs.rs`: the validator's `ParticleState`. -/
structure ParticleState where
  position : Vec2
  velocity : Vec2
  radius : ℚ
  mass : ℚ
deriving DecidableEq, Repr

instance : Inhabited ParticleState := ⟨⟨⟨0, 0⟩, ⟨0, 0⟩, 0, 0⟩⟩

/-- View a simulator particle through the fields the validator keeps. -/
def Particle.toState (p : Particle) : ParticleState :=
  ⟨p.position, p.velocity, p.radius, p.mass⟩

/-- The literal `1e-12` from the pair-TOI kernels. -/
def epsA : ℚ := 1 / 1000000000000

namespace Detector

/-- `simulator/src/detector.rs`: `p2p_toi`.  `sqrtf` stands for the `f32`
square-root intrinsic applied to the discriminant. -/
def p2p_toi (sqrtf : ℚ → ℚ) (p1 p2 : Particle) (dt : ℚ) : Option ℚ :=
  let dp := p2.position - p1.position
  let dv := p2.velocity - p1.velocity
  let r := p1.radius + p2.radius
  let a := dv.dot dv
  let b := 2 * dp.dot dv
  let c := dp.dot dp - r * r
  if c ≤ 0 then none
  else if a ≤ epsA then none
  else if b ≥ 0 then none
  else
    let disc := b * b - 4 * a * c
    if disc < 0 then none
    else
      let sqrt_d := sqrtf disc
      let t_min := (-b - sqrt_d) / (2 * a)
      if t_min ≥ 0 ∧ t_min ≤ dt then some t_min else none

/-- `simulator/src/detector.rs`: `boundary_toi`.  The running `f32` minimum
initialised to `INFINITY` is modelled by an `Option ℚ` accumulator
(`none` = infinity); the trailing `is_finite` test is `Option.isSome`. -/
def boundary_toi (p : Particle) (bounds : Bounds) (dt : ℚ) : Option ℚ :=
  let hw := (Bounds.half_extents bounds).1
  let hh := (Bounds.half_extents bounds).2
  let pos := p.position
  let vel := p.velocity
  let r := p.radius
  let x_min := -hw + r
  let x_max := hw - r
  let y_min := -hh + r
  let y_max := hh - r
  let upd : Option ℚ → ℚ → Option ℚ := fun acc t =>
    match acc with
    | none => some t
    | some m => some (min m t)
  let t1 : Option ℚ :=
    if vel.x > 0 then
      let t := (x_max - pos.x) / vel.x
      if t ≥ 0 then (if t ≤ dt then upd none t else none) else none
    else if vel.x < 0 then
      let t := (x_min - pos.x) / vel.x
      if t ≥ 0 then (if t ≤ dt then upd none t else none) else none
    else none
  let t2 : Option ℚ :=
    if vel.y > 0 then
      let t := (y_max - pos.y) / vel.y
      if t ≥ 0 then (if t ≤ dt then upd t1 t else t1) else t1
    else if vel.y < 0 then
      let t := (y_min - pos.y) / vel.y
      if t ≥ 0 then (if t ≤ dt then upd t1 t else t1) else t1
    else t1
  t2

end Detector

namespace Comp

/-- `validate/src/validator/comp.rs`: the validator's own `p2p_toi`,
embedded separately from the simulator's copy so the two can be compared. -/
def p2p_toi (sqrtf : ℚ → ℚ) (p1 p2 : ParticleState) (dt : ℚ) : Option ℚ :=
  let dp := p2.position - p1.position
  let dv := p2.velocity - p1.velocity
  let r := p1.radius + p2.radius
  let a := dv.dot dv
  let b := 2 * dp.dot dv
  let c := dp.dot dp - r * r
  if c ≤ 0 then none
  else if a ≤ epsA then none
  else if b ≥ 0 then none
  else
    let disc := b * b - 4 * a * c
    if disc < 0 then none
    else
      let sqrt_d := sqrtf disc
      let t_min := (-b - sqrt_d) / (2 * a)
      if t_min ≥ 0 ∧ t_min ≤ dt then some t_min else none

end Comp

/-- The pair-TOI kernel exactly as the specification words it: with
`a = Δv·Δv`, `b = 2Δp·Δv`, `c = Δp·Δp − R²`, return `none` when
`c ≤ 0`, or `a ≤ 1e-12`, or `b ≥ 0`, or the discriminant is negative, or
the root `(−b − √disc)/(2a)` lies outside `[0, dt]`; otherwise that root. -/
def p2pToiSpec (sqrtf : ℚ → ℚ) (p1 p2 : Particle) (dt : ℚ) : Option ℚ :=
  let dp := p2.position - p1.position
  let dv := p2.velocity - p1.velocity
  let r := p1.radius + p2.radius
  let a := dv.dot dv
  let b := 2 * dp.dot dv
  let c := dp.dot dp - r * r
  let disc := b * b - 4 * a * c
  let t := (-b - sqrtf disc) / (2 * a)
  if c ≤ 0 ∨ a ≤ epsA ∨ b ≥ 0 ∨ disc < 0 ∨ t < 0 ∨ t > dt then none
  else some t

/-- The axis-crossing candidate times of `boundary_toi` as the spec words
them: for each axis with non-zero velocity component, the time to the
clamped-interval edge lying in the direction of motion, kept only when it
falls inside `[0, dt]`. -/
def crossingTimes (p : Particle) (bounds : Bounds) (dt : ℚ) : List ℚ :=
  let hw := (Bounds.half_extents bounds).1
  let hh := (Bounds.half_extents bounds).2
  let xs : List ℚ :=
    if p.velocity.x > 0 then
      let t := ((hw - p.radius) - p.position.x) / p.velocity.x
      if t ≥ 0 ∧ t ≤ dt then [t] else []
    else if p.velocity.x < 0 then
      let t := ((-hw + p.radius) - p.position.x) / p.velocity.x
      if t ≥ 0 ∧ t ≤ dt then [t] else []
    else []
  let ys : List ℚ :=
    if p.velocity.y > 0 then
      let t := ((hh - p.radius) - p.position.y) / p.velocity.y
      if t ≥ 0 ∧ t ≤ dt then [t] else []
    else if p.velocity.y < 0 then
      let t := ((-hh + p.radius) - p.position.y) / p.velocity.y
      if t ≥ 0 ∧ t ≤ dt then [t] else []
    else []
  xs ++ ys

/-- Minimum of a list of candidate times, `none` when there is none. -/
def listMin : List ℚ → Option ℚ
  | [] => none
  | t :: ts =>
    match listMin ts with
    | none => some t
    | some m => some (min t m)

/-- `(⌊x/cell⌋, ⌊y/cell⌋)` — `SpatialGrid::cell_coord`. -/
def cellCoord (cell_size : ℚ) (pos : Vec2) : ℤ × ℤ :=
  (⌊pos.x / cell_size⌋, ⌊pos.y / cell_size⌋)

/-- `simulator/src/spatial.rs`: `SpatialGrid`.  The `HashMap<IVec2, Vec<usize>>`
is modelled by an association list; `cell_list` and the candidate queries only
perform lookups, which are order-insensitive. -/
structure SpatialGrid where
  cell_size : ℚ
  cells : List ((ℤ × ℤ) × List ℕ)
  r_max : ℚ
deriving DecidableEq, Repr

namespace SpatialGrid

/-- `SpatialGrid::new`: empty map, `r_max = 0.0`. -/
def new (cell_size : ℚ) : SpatialGrid := ⟨cell_size, [], 0⟩

/-- `SpatialGrid::set_max_radius`.  (Dead code in the crate: no caller
exists anywhere in the simulator.) -/
def set_max_radius (g : SpatialGrid) (r : ℚ) : SpatialGrid := { g with r_max := r }

/-- Append index `i` to the bucket of cell `c` (`cells.entry(c).or_default().push(i)`). -/
def bucketsAdd : List ((ℤ × ℤ) × List ℕ) → (ℤ × ℤ) → ℕ → List ((ℤ × ℤ) × List ℕ)
  | [], c, i => [(c, [i])]
  | (c', l) :: rest, c, i =>
    if c' = c then (c', l ++ [i]) :: rest else (c', l) :: bucketsAdd rest c i

/-- `SpatialGrid::rebuild`: clear the map, then append every particle index
at its cell coordinate.  `r_max` is not touched. -/
def rebuild (g : SpatialGrid) (particles : List Particle) : SpatialGrid :=
  { g with
    cells := particles.enum.foldl
      (fun acc ip => bucketsAdd acc (cellCoord g.cell_size ip.2.position) ip.1) [] }

/-- Bucket lookup (`self.cells.get(&c)`, absent cell = empty). -/
def lookupCell (cells : List ((ℤ × ℤ) × List ℕ)) (c : ℤ × ℤ) : List ℕ :=
  match cells.find? (fun e => decide (e.1 = c)) with
  | some e => e.2
  | none => []

/-- The 3×3 neighbourhood offsets, in the `DIRS` order of the source. -/
def DIRS : List (ℤ × ℤ) :=
  [(-1, -1), (-1, 0), (-1, 1), (0, -1), (0, 0), (0, 1), (1, -1), (1, 0), (1, 1)]

/-- `SpatialGrid::cell_list`: indices in the 3×3 block around `p`'s cell. -/
def cell_list (g : SpatialGrid) (p : Particle) : List ℕ :=
  let base := cellCoord g.cell_size p.position
  (DIRS.map (fun d => lookupCell g.cells (base.1 + d.1, base.2 + d.2))).flatten

end SpatialGrid

/-- Grid states reachable through the simulator: `Solver::new` constructs
`SpatialGrid::new(cell_size)`, and `Solver::solve` only ever calls `rebuild`
and the (read-only) candidate queries.  No call site of `set_max_radius`
exists in the crate. -/
inductive GridReach : SpatialGrid → Prop where
  | new : ∀ cell_size, GridReach (SpatialGrid.new cell_size)
  | rebuild : ∀ g particles, GridReach g → GridReach (g.rebuild particles)

/-- `simulator/src/solver.rs`: the `Collision` enum. -/
inductive Collision where
  | Pair (i j : ℕ)
  | Wall (i : ℕ)
deriving DecidableEq, Repr

/-- `simulator/src/solver.rs`: the `Toi` struct. -/
structure Toi where
  time : ℚ
  collision : Collision
deriving DecidableEq, Repr

/-- `Option::is_some_and`. -/
def isSomeAnd (o : Option Toi) (f : Toi → Bool) : Bool :=
  match o with
  | none => false
  | some a => f a

namespace Detector

/-- One step of the candidate loop in `CellListDetector::find_min_toi`:
skip `j ≤ i`; otherwise try the pair kernel under the adaptive window
`dt_i` and keep an improving TOI, tightening `dt_i` to it. -/
def scanStep (sqrtf : ℚ → ℚ) (particles : List Particle) (i : ℕ) (p : Particle)
    (acc : Option Toi × ℚ) (j : ℕ) : Option Toi × ℚ :=
  if j ≤ i then acc
  else
    match p2p_toi sqrtf p (particles.getD j default) acc.2 with
    | none => acc
    | some t =>
      if isSomeAnd acc.1 (fun toi => decide (t ≥ toi.time)) then acc
      else (some ⟨t, Collision.Pair i j⟩, t)

/-- The boundary step closing the per-particle scan: try the boundary
kernel with the tightened window `res.2` and keep an improving TOI. -/
def scanBoundary (bounds : Bounds) (i : ℕ) (p : Particle)
    (res : Option Toi × ℚ) : Option Toi :=
  match boundary_toi p bounds res.2 with
  | none => res.1
  | some t =>
    if isSomeAnd res.1 (fun toi => decide (t ≥ toi.time)) then res.1
    else some ⟨t, Collision.Wall i⟩

/-- The per-particle body of `CellListDetector::find_min_toi`: fold the
candidate loop over `grid.cell_list(p)`, then try the boundary kernel with
the tightened window. -/
def scanParticle (sqrtf : ℚ → ℚ) (grid : SpatialGrid) (particles : List Particle)
    (bounds : Bounds) (dt : ℚ) (i : ℕ) (p : Particle) : Option Toi :=
  scanBoundary bounds i p
    ((grid.cell_list p).foldl (scanStep sqrtf particles i p) (none, dt))

/-- One comparison step of `Iterator::min_by` on `a.time.partial_cmp(&b.time)`
(over exact rationals the comparison is total; `min_by` keeps the first
minimum). -/
def minBy (acc : Option Toi) (toi : Toi) : Option Toi :=
  match acc with
  | none => some toi
  | some best => if toi.time < best.time then some toi else some best

/-- `CellListDetector::find_min_toi`: scan every particle, then take the
minimum by time. -/
def find_min_toi (sqrtf : ℚ → ℚ) (grid : SpatialGrid) (particles : List Particle)
    (bounds : Bounds) (dt : ℚ) : Option Toi :=
  (particles.enum.filterMap
      (fun ip => scanParticle sqrtf grid particles bounds dt ip.1 ip.2)).foldl
    minBy none

end Detector

/-- Scalar division `v / s` (glam's `Vec2 / f32`). -/
def Vec2.divScalar (v : Vec2) (s : ℚ) : Vec2 := ⟨v.x / s, v.y / s⟩

/-- The events the solver hands to the recorder (`write_event_pair` /
`write_event_wall`), in application order. -/
inductive Event where
  | pair (toi : ℚ) (i j : ℕ) (nx ny vrel_before vrel_after : ℚ)
  | wall (toi : ℚ) (i : ℕ) (tag : String) (nx ny vn_before vn_after : ℚ)
deriving DecidableEq, Repr

namespace Solver

/-- `const EPS_T: f32 = 1e-5`. -/
def EPS_T : ℚ := 1 / 100000

/-- `const MAX_ITER: usize = 100`. -/
def MAX_ITER : ℕ := 100

/-- `n = p2.position - p1.position` of the Pair branch of
`Solver::resolve_collision` (out-of-range indices read a default particle;
the solver only produces in-range indices). -/
def pairN (particles : List Particle) (i j : ℕ) : Vec2 :=
  (particles.getD j default).position - (particles.getD i default).position

/-- `dist2 = n.dot(n)` of the Pair branch. -/
def pairDist2 (particles : List Particle) (i j : ℕ) : ℚ :=
  (pairN particles i j).dot (pairN particles i j)

/-- `n_hat = n / dist2.sqrt()` of the Pair branch. -/
def pairNhat (sqrtf : ℚ → ℚ) (particles : List Particle) (i j : ℕ) : Vec2 :=
  (pairN particles i j).divScalar (sqrtf (pairDist2 particles i j))

/-- `v_rel_n = (p2.velocity - p1.velocity).dot(n_hat)` of the Pair branch. -/
def pairVreln (sqrtf : ℚ → ℚ) (particles : List Particle) (i j : ℕ) : ℚ :=
  ((particles.getD j default).velocity - (particles.getD i default).velocity).dot
    (pairNhat sqrtf particles i j)

/-- `Solver::resolve_collision`, returning the updated particles together
with the events written to the recorder. -/
def resolve_collision (sqrtf : ℚ → ℚ) (particles : List Particle) (bounds : Bounds)
    (toi : Toi) : List Particle × List Event :=
  match toi.collision with
  | Collision.Pair i j =>
    let p1 := particles.getD i default
    let p2 := particles.getD j default
    let dist2 := pairDist2 particles i j
    if dist2 = 0 then (particles, [])
    else
      let n_hat := pairNhat sqrtf particles i j
      let v_rel_n := pairVreln sqrtf particles i j
      if v_rel_n ≥ 0 then (particles, [])
      else
        let m1 := p1.mass
        let m2 := p2.mass
        let impulse := n_hat.scale (2 * m1 * m2 / (m1 + m2) * v_rel_n)
        let ps1 := particles.set i { p1 with velocity := p1.velocity + impulse.divScalar m1 }
        let pj := ps1.getD j default
        let ps2 := ps1.set j { pj with velocity := pj.velocity - impulse.divScalar m2 }
        let v_rel_n_after :=
          ((ps2.getD j default).velocity - (ps2.getD i default).velocity).dot n_hat
        (ps2, [Event.pair toi.time i j n_hat.x n_hat.y v_rel_n v_rel_n_after])
  | Collision.Wall i =>
    let p := particles.getD i default
    let hw := (Bounds.half_extents bounds).1
    let hh := (Bounds.half_extents bounds).2
    let x_min := -hw + p.radius
    let x_max := hw - p.radius
    let y_min := -hh + p.radius
    let y_max := hh - p.radius
    let n : Vec2 :=
      if p.position.x ≤ x_min then ⟨-1, 0⟩
      else if p.position.x ≥ x_max then ⟨1, 0⟩
      else if p.position.y ≤ y_min then ⟨0, -1⟩
      else ⟨0, 1⟩
    let vn_before := p.velocity.dot n
    let px :=
      if p.position.x ≤ x_min ∧ p.velocity.x < 0 then
        { p with position := ⟨x_min, p.position.y⟩, velocity := ⟨-p.velocity.x, p.velocity.y⟩ }
      else if p.position.x ≥ x_max ∧ p.velocity.x > 0 then
        { p with position := ⟨x_max, p.position.y⟩, velocity := ⟨-p.velocity.x, p.velocity.y⟩ }
      else p
    let py :=
      if px.position.y ≤ y_min ∧ px.velocity.y < 0 then
        { px with position := ⟨px.position.x, y_min⟩, velocity := ⟨px.velocity.x, -px.velocity.y⟩ }
      else if px.position.y ≥ y_max ∧ px.velocity.y > 0 then
        { px with position := ⟨px.position.x, y_max⟩, velocity := ⟨px.velocity.x, -px.velocity.y⟩ }
      else px
    let vn_after := py.velocity.dot n
    let tag :=
      if py.position.x ≤ x_min then "left"
      else if py.position.x ≥ x_max then "right"
      else if py.position.y ≤ y_min then "bottom"
      else "top"
    (particles.set i py, [Event.wall toi.time i tag n.x n.y vn_before vn_after])

/-- `Solver::advance_all`. -/
def advance_all (particles : List Particle) (dt : ℚ) : List Particle :=
  particles.map fun p => { p with position := p.position + p.velocity.scale dt }

/-- The per-particle body of `Solver::clamp_particles`. -/
def clampParticle (bounds : Bounds) (p : Particle) : Particle :=
  let hw := (Bounds.half_extents bounds).1
  let hh := (Bounds.half_extents bounds).2
  let x_min := -hw + p.radius
  let x_max := hw - p.radius
  let y_min := -hh + p.radius
  let y_max := hh - p.radius
  let px :=
    if p.position.x < x_min then
      { p with position := ⟨x_min, p.position.y⟩, velocity := ⟨-p.velocity.x, p.velocity.y⟩ }
    else if p.position.x > x_max then
      { p with position := ⟨x_max, p.position.y⟩, velocity := ⟨-p.velocity.x, p.velocity.y⟩ }
    else p
  let py :=
    if px.position.y < y_min then
      { px with position := ⟨px.position.x, y_min⟩, velocity := ⟨px.velocity.x, -px.velocity.y⟩ }
    else if px.position.y > y_max then
      { px with position := ⟨px.position.x, y_max⟩, velocity := ⟨px.velocity.x, -px.velocity.y⟩ }
    else px
  py

/-- `Solver::clamp_particles`. -/
def clamp_particles (particles : List Particle) (bounds : Bounds) : List Particle :=
  particles.map (clampParticle bounds)

/-- The sub-iteration loop of `Solver::solve`.  The detector is abstracted
as a function of the current particles: the grid is rebuilt from scratch at
the start of every sub-iteration, so the detector's answer is determined by
`(particles, bounds, dt)` alone (`cell_size` and the dead `r_max` are fixed
at construction).  The fuel is `MAX_ITER`. -/
def solveLoop (detect : List Particle → Bounds → ℚ → Option Toi) (sqrtf : ℚ → ℚ) :
    ℕ → List Particle → Bounds → ℚ → List Particle × List Event
  | 0, particles, _, _ => (particles, [])
  | n + 1, particles, bounds, dt =>
    if dt ≤ EPS_T then (advance_all particles dt, [])
    else
      match detect particles bounds dt with
      | none => (advance_all particles dt, [])
      | some toi =>
        let ps1 := advance_all particles toi.time
        let r := resolve_collision sqrtf ps1 bounds toi
        let rest := solveLoop detect sqrtf n r.1 bounds (dt - toi.time)
        (rest.1, r.2 ++ rest.2)

/-- `Solver::solve`: run up to `MAX_ITER` sub-iterations, then clamp every
particle into its valid interval. -/
def solve (detect : List Particle → Bounds → ℚ → Option Toi) (sqrtf : ℚ → ℚ)
    (particles : List Particle) (bounds : Bounds) (dt : ℚ) :
    List Particle × List Event :=
  let r := solveLoop detect sqrtf MAX_ITER particles bounds dt
  (clamp_particles r.1 bounds, r.2)

end Solver

/-- The clamped-interval containment invariant of the spec: the particle
center lies in `[-w/2 + r, w/2 - r] × [-h/2 + r, h/2 - r]`. -/
def inClampedInterval (bounds : Bounds) (p : Particle) : Prop :=
  -bounds.width / 2 + p.radius ≤ p.position.x ∧
  p.position.x ≤ bounds.width / 2 - p.radius ∧
  -bounds.height / 2 + p.radius ≤ p.position.y ∧
  p.position.y ≤ bounds.height / 2 - p.radius

/-- A concrete square-root oracle for witnesses: exact on perfect-square
integers (all oracle hypotheses below are only ever instantiated there). -/
def natSqrtQ (q : ℚ) : ℚ := (Nat.sqrt q.num.natAbs : ℚ)

/-- Witness configuration: two unit-radius, unit-mass particles approaching
head-on along the x-axis at touching distance scaled out to distance 2. -/
def wParticles : List Particle :=
  [⟨⟨0, 0⟩, ⟨1, 0⟩, 1, 1⟩, ⟨⟨2, 0⟩, ⟨-1, 0⟩, 1, 1⟩]

namespace Validator

/-- `validate/src/miscs.rs`: the parsed `EventRow` of the trace. -/
inductive EventRow where
  | pair (frame : ℕ) (time_s toi : ℚ) (i j : ℕ)
      (ix iy jx jy nx ny vrel_n_before vrel_n_after : ℚ)
  | wall (frame : ℕ) (time_s toi : ℚ) (i : ℕ) (tag : String)
      (x y nx ny vn_before vn_after : ℚ)
deriving DecidableEq, Repr

/-- `validate/src/frame_window.rs`: `FrameWindow`.  The
`HashMap<usize, ParticleState>` is an association list; the key vector the
scan builds (`particles.keys()`) is its first-projection list. -/
structure FrameWindow where
  frame : ℕ
  time_s : ℚ
  particles : List (ℕ × ParticleState)
  events : List EventRow
deriving Repr

/-- Map indexing `particles[&k]` (total in the code because every key the
scan uses was drawn from the same map). -/
def lookupState (l : List (ℕ × ParticleState)) (k : ℕ) : ParticleState :=
  match l.find? (fun e => decide (e.1 = k)) with
  | some e => e.2
  | none => default

/-- The index pairs `i < j` the double loop of `find_missed_collisions`
walks over the key vector. -/
def keyPairs : List ℕ → List (ℕ × ℕ)
  | [] => []
  | k :: ks => (ks.map fun k2 => (k, k2)) ++ keyPairs ks

/-- `events.iter().any(...)`: some Pair event matches `{i, j}` in either
order. -/
def pairReported (events : List EventRow) (i j : ℕ) : Bool :=
  events.any fun e =>
    match e with
    | EventRow.pair _ _ _ ei ej _ _ _ _ _ _ _ _ =>
      decide ((ei = i ∧ ej = j) ∨ (ei = j ∧ ej = i))
    | _ => false

/-- `validate/src/validator/missed_collision.rs`: the `MissedCollision`
record. -/
structure MissedCollision where
  frame : ℕ
  i : ℕ
  j : ℕ
  ix : ℚ
  iy : ℚ
  jx : ℚ
  jy : ℚ
  toi : ℚ
deriving DecidableEq, Repr

/-- `StreamingValidator::find_missed_collisions`.  `curr` is the earlier
window and `next` the later one, exactly as `validate_frame` passes them;
note the particle lookups all read `curr`. -/
def find_missed_collisions (sqrtf : ℚ → ℚ) (curr next : FrameWindow)
    (events : List EventRow) (dt : ℚ) : List MissedCollision :=
  (keyPairs (curr.particles.map Prod.fst)).filterMap fun ij =>
    let p1 := lookupState curr.particles ij.1
    let p2 := lookupState curr.particles ij.2
    match Comp.p2p_toi sqrtf p1 p2 dt with
    | none => none
    | some toi =>
      if pairReported events ij.1 ij.2 then none
      else some ⟨next.frame, ij.1, ij.2, p1.position.x, p1.position.y,
        p2.position.x, p2.position.y, toi⟩

/-- Extended value mirroring the IEEE outcomes of the one unguarded `f32`
division in `check_conservation` (the sign of an infinity is collapsed
because the code takes the absolute value immediately). -/
inductive XF where
  | fin (q : ℚ)
  | nan
  | inf
deriving DecidableEq, Repr

/-- `(a / b).abs()` under IEEE semantics: finite quotient for `b ≠ 0`,
`NaN` for `0/0`, `+∞` for `a/0` with `a ≠ 0`. -/
def fdivAbs (a b : ℚ) : XF :=
  if b ≠ 0 then XF.fin |a / b| else if a = 0 then XF.nan else XF.inf

/-- `x > tol` on an extended value: `NaN > tol` is false, `+∞ > tol` is
true for the finite tolerances of the CLI. -/
def XF.gtQ : XF → ℚ → Bool
  | XF.fin q, tol => decide (q > tol)
  | XF.nan, _ => false
  | XF.inf, _ => true

/-- `validate/src/validator/comp.rs`: `compute_totals` — kinetic energy and
the two momentum components summed over the frame's particles. -/
def compute_totals (particles : List (ℕ × ParticleState)) : ℚ × ℚ × ℚ :=
  particles.foldl
    (fun acc e =>
      (acc.1 + 1/2 * e.2.mass * e.2.velocity.length_squared,
        acc.2.1 + e.2.mass * e.2.velocity.x,
        acc.2.2 + e.2.mass * e.2.velocity.y))
    (0, 0, 0)

/-- `validate/src/validator/conservation.rs`: the `ConservationViolation`
record (the possibly-NaN/∞ energy error kept as an extended value). -/
structure ConservationViolation where
  frame : ℕ
  energy_error : XF
  x_error : ℚ
  y_error : ℚ
deriving Repr

/-- `StreamingValidator::check_conservation`: the momentum denominators are
floored at `1e-6`; the energy denominator is the raw previous total. -/
def check_conservation (tol : ℚ) (curr next : FrameWindow) :
    Option ConservationViolation :=
  let t1 := compute_totals curr.particles
  let t2 := compute_totals next.particles
  let energy_error := fdivAbs (t2.1 - t1.1) t1.1
  let px_error := |(t2.2.1 - t1.2.1) / max |t1.2.1| (1/1000000)|
  let py_error := |(t2.2.2 - t1.2.2) / max |t1.2.2| (1/1000000)|
  if energy_error.gtQ tol ∨ px_error > tol ∨ py_error > tol then
    some ⟨next.frame, energy_error, px_error, py_error⟩
  else none

end Validator

/-- Extended rational modelling the `f32` values of the ray-march iterator,
where `INFINITY` marks an inactive axis. -/
inductive ExtQ where
  | fin (q : ℚ)
  | inf
deriving DecidableEq, Repr

namespace ExtQ

/-- `f32::is_infinite` (no NaNs arise in the iterator). -/
def isInf : ExtQ → Bool
  | inf => true
  | _ => false

/-- `f32` `<` on the values arising here: `inf < x` is false, `fin _ < inf`
is true. -/
def blt : ExtQ → ExtQ → Bool
  | fin a, fin b => decide (a < b)
  | fin _, inf => true
  | inf, _ => false

/-- `x > r` against a finite right-hand side. -/
def bgtQ : ExtQ → ℚ → Bool
  | fin a, r => decide (a > r)
  | inf, _ => true

/-- Addition (`inf + _ = inf`, matching IEEE for these operands). -/
def add : ExtQ → ExtQ → ExtQ
  | fin a, fin b => fin (a + b)
  | _, _ => inf

/-- `f32::max(_, 0.0)`. -/
def max0 : ExtQ → ExtQ
  | fin a => fin (max a 0)
  | inf => inf

/-- `f32::abs`. -/
def absv : ExtQ → ExtQ
  | fin a => fin |a|
  | inf => inf

end ExtQ

/-- `simulator/src/spatial.rs`: the `GridRayIter` state. -/
structure GridRayIter where
  cur : ℤ × ℤ
  step : ℤ × ℤ
  t_max : ExtQ × ExtQ
  t_delta : ExtQ × ExtQ
  t_remain : ℚ
  done : Bool
deriving DecidableEq, Repr

namespace GridRayIter

/-- `GridRayIter::new`. -/
def new (origin dir : Vec2) (tmax cell_size : ℚ) : GridRayIter :=
  let inv : Vec2 := ⟨if dir.x ≠ 0 then 1 / dir.x else 0, if dir.y ≠ 0 then 1 / dir.y else 0⟩
  let cell : ℤ × ℤ := (⌊origin.x / cell_size⌋, ⌊origin.y / cell_size⌋)
  let step_x : ℤ := if dir.x > 0 then 1 else if dir.x < 0 then -1 else 0
  let step_y : ℤ := if dir.y > 0 then 1 else if dir.y < 0 then -1 else 0
  let next_boundary_x : ℚ :=
    if step_x > 0 then ((cell.1 : ℚ) + 1) * cell_size else (cell.1 : ℚ) * cell_size
  let next_boundary_y : ℚ :=
    if step_y > 0 then ((cell.2 : ℚ) + 1) * cell_size else (cell.2 : ℚ) * cell_size
  let tx : ExtQ :=
    if step_x ≠ 0 then (if dir.x ≠ 0 then ExtQ.fin ((next_boundary_x - origin.x) * inv.x)
      else ExtQ.inf) else ExtQ.inf
  let ty : ExtQ :=
    if step_y ≠ 0 then (if dir.y ≠ 0 then ExtQ.fin ((next_boundary_y - origin.y) * inv.y)
      else ExtQ.inf) else ExtQ.inf
  let tdx : ExtQ :=
    if step_x ≠ 0 then (if dir.x ≠ 0 then ExtQ.fin (cell_size * (step_x : ℚ) * inv.x)
      else ExtQ.inf) else ExtQ.inf
  let tdy : ExtQ :=
    if step_y ≠ 0 then (if dir.y ≠ 0 then ExtQ.fin (cell_size * (step_y : ℚ) * inv.y)
      else ExtQ.inf) else ExtQ.inf
  { cur := cell
    step := (step_x, step_y)
    t_max := (tx.max0, ty.max0)
    t_delta := (tdx.absv, tdy.absv)
    t_remain := max tmax 0
    done := false }

/-- `Iterator::next for GridRayIter`. -/
def next (s : GridRayIter) : Option ((ℤ × ℤ) × GridRayIter) :=
  if s.done then none
  else
    let out := s.cur
    if s.t_remain ≤ 0 ∨ (s.t_max.1.isInf ∧ s.t_max.2.isInf) then
      some (out, { s with done := true })
    else if s.t_max.1.blt s.t_max.2 then
      if s.t_max.1.bgtQ s.t_remain then some (out, { s with done := true })
      else
        some (out,
          { s with
            cur := (s.cur.1 + s.step.1, s.cur.2)
            t_max := (s.t_max.1.add s.t_delta.1, s.t_max.2) })
    else
      if s.t_max.2.bgtQ s.t_remain then some (out, { s with done := true })
      else
        some (out,
          { s with
            cur := (s.cur.1, s.cur.2 + s.step.2)
            t_max := (s.t_max.1, s.t_max.2.add s.t_delta.2) })

/-- Advance the iterator one `next` call (identity once exhausted). -/
def stepState (s : GridRayIter) : GridRayIter :=
  match next s with
  | none => s
  | some r => r.2

/-- Iterate `stepState`. -/
def iterate : GridRayIter → ℕ → GridRayIter
  | s, 0 => s
  | s, n + 1 => iterate (stepState s) n

/-- The cells the iterator yields within `n` calls to `next`. -/
def runYields : GridRayIter → ℕ → List (ℤ × ℤ)
  | _, 0 => []
  | s, n + 1 =>
    match next s with
    | none => []
    | some r => r.1 :: runYields r.2 n

/-- Per-axis well-formedness: an axis is inactive (`t_max` and `t_delta`
both infinite) or active with a strictly positive finite step advance. -/
def axisWF : ExtQ → ExtQ → Prop
  | ExtQ.inf, ExtQ.inf => True
  | ExtQ.fin _, ExtQ.fin d => 0 < d
  | _, _ => False

/-- State well-formedness (established by `new` for positive cell size and
preserved by `next`). -/
def WF (s : GridRayIter) : Prop :=
  axisWF s.t_max.1 s.t_delta.1 ∧ axisWF s.t_max.2 s.t_delta.2

/-- How many steps an axis can still take before its crossing time passes
the remaining window. -/
def axisBudget : ExtQ → ExtQ → ℚ → ℕ
  | ExtQ.fin tval, ExtQ.fin d, r => if tval > r then 0 else (⌊(r - tval) / d⌋.toNat + 1)
  | _, _, _ => 0

/-- Decreasing measure for the iteration. -/
def stepsBound (s : GridRayIter) : ℕ :=
  if s.done then 0
  else axisBudget s.t_max.1 s.t_delta.1 s.t_remain
    + axisBudget s.t_max.2 s.t_delta.2 s.t_remain + 1

end GridRayIter

/-- Witness windows for the validator claims: an approaching pair in the
earlier window, only particle `0` surviving into the later one. -/
def w8prev : Validator.FrameWindow :=
  ⟨4, 0, [(0, ⟨⟨0, 0⟩, ⟨1, 0⟩, 1, 1⟩), (1, ⟨⟨3, 0⟩, ⟨0, 0⟩, 1, 1⟩)], []⟩

/-- The later window of the C8 counterexample: particle `1` is gone. -/
def w8next : Validator.FrameWindow :=
  ⟨5, 2, [(0, ⟨⟨2, 0⟩, ⟨1, 0⟩, 1, 1⟩)], []⟩


-- ## Theorems

theorem Vec2.add_def (a b : Vec2) : a + b = ⟨a.x + b.x, a.y + b.y⟩ := rfl

theorem Vec2.sub_def (a b : Vec2) : a - b = ⟨a.x - b.x, a.y - b.y⟩ := rfl

/-- The guard chain of the pair-TOI kernel agrees with the one-shot
disjunctive formulation, for arbitrary scalar atoms. -/
theorem p2p_shape (a b c disc t dt : ℚ) :
    (if c ≤ 0 then none
     else if a ≤ epsA then none
     else if b ≥ 0 then none
     else if disc < 0 then none
     else if t ≥ 0 ∧ t ≤ dt then some t else none) =
    (if c ≤ 0 ∨ a ≤ epsA ∨ b ≥ 0 ∨ disc < 0 ∨ t < 0 ∨ t > dt then (none : Option ℚ)
     else some t) := by
  by_cases h1 : c ≤ 0
  · simp [h1]
  · by_cases h2 : a ≤ epsA
    · simp [h1, h2]
    · by_cases h3 : b ≥ 0
      · simp [h1, h2, h3]
      · by_cases h4 : disc < 0
        · simp [h1, h2, h3, h4]
        · by_cases h5 : t < 0
          · simp [h1, h2, h3, h4, h5, le_of_not_lt, not_le.mpr h5]
          · by_cases h6 : t > dt
            · simp [h1, h2, h3, h4, h5, h6, not_le.mpr h6]
            · push_neg at h5 h6
              simp [h1, h2, h3, h4, h5, h6, not_lt.mpr h5, not_lt.mpr h6]

/-- C2: the pair-TOI kernel returns `none` exactly when `c ≤ 0`, or
`a ≤ 1e-12`, or `b ≥ 0`, or the discriminant is negative, or the root
`(−b − √disc)/(2a)` lies outside `[0, dt]`, and otherwise returns exactly
that root; and the simulator's kernel (`detector.rs`) and the validator's
kernel (`comp.rs`) implement this same definition. -/
theorem claim_C2_p2p_toi_kernel (sqrtf : ℚ → ℚ) (p1 p2 : Particle) (dt : ℚ) :
    Detector.p2p_toi sqrtf p1 p2 dt = p2pToiSpec sqrtf p1 p2 dt ∧
    Comp.p2p_toi sqrtf p1.toState p2.toState dt = Detector.p2p_toi sqrtf p1 p2 dt := by
  constructor
  · simp only [Detector.p2p_toi, p2pToiSpec]
    exact p2p_shape _ _ _ _ _ _
  · rfl

/-- C1: the claim asserts `r_max ≥` every particle radius on all grid states
reachable through the simulator.  In the code `set_max_radius` has no call
site: `Solver::new` builds `SpatialGrid::new(cell_size)` (with
`r_max = 0.0`) and `Solver::solve` only calls `rebuild` and the read-only
candidate queries, so `r_max` stays `0` on every reachable state — in
particular it is strictly below the radius `1` of a particle handed to
`rebuild` (the CLI rejects radii under `1.0`).  The claim fails on the code. -/
theorem claim_C1_r_max_stuck_at_zero :
    (∀ g, GridReach g → g.r_max = 0) ∧
    ((SpatialGrid.new 20).rebuild [⟨⟨0, 0⟩, ⟨0, 0⟩, 1, 1⟩]).r_max <
      (⟨⟨0, 0⟩, ⟨0, 0⟩, 1, 1⟩ : Particle).radius := by
  have h : ∀ g, GridReach g → g.r_max = 0 := by
    intro g hg
    induction hg with
    | new cell_size => rfl
    | rebuild g particles _ ih => simpa [SpatialGrid.rebuild] using ih
  refine ⟨h, ?_⟩
  rw [h _ (GridReach.rebuild _ _ (GridReach.new 20))]
  norm_num

/-- Witness for C1 at a concrete reachable state. -/
theorem claim_C1_r_max_stuck_at_zero_witness :
    ((SpatialGrid.new 20).rebuild [⟨⟨0, 0⟩, ⟨0, 0⟩, 1, 1⟩]).r_max = 0 :=
  claim_C1_r_max_stuck_at_zero.1 _ (GridReach.rebuild _ _ (GridReach.new 20))

/-- A `some` answer of the pair kernel lies inside `[0, dt]`. -/
theorem p2p_toi_some_bounds (sqrtf : ℚ → ℚ) (p1 p2 : Particle) (dt t : ℚ)
    (h : Detector.p2p_toi sqrtf p1 p2 dt = some t) : 0 ≤ t ∧ t ≤ dt := by
  simp only [Detector.p2p_toi] at h
  split_ifs at h with h1 h2 h3 h4 h5 <;> simp at h
  subst h
  exact ⟨h5.1, h5.2⟩

/-- `listMin` returns an element of its argument. -/
theorem listMin_mem : ∀ (l : List ℚ) (t : ℚ), listMin l = some t → t ∈ l := by
  intro l
  induction l with
  | nil => intro t h; cases h
  | cons x xs ih =>
    intro t h
    unfold listMin at h
    cases hm : listMin xs with
    | none =>
      rw [hm] at h
      cases h
      exact List.mem_cons_self x xs
    | some m =>
      rw [hm] at h
      cases h
      rcases min_choice x m with hc | hc
      · rw [hc]; exact List.mem_cons_self x xs
      · rw [hc]; exact List.mem_cons_of_mem _ (ih m hm)

set_option maxHeartbeats 1000000 in
/-- Every axis-crossing candidate lies inside `[0, dt]`. -/
theorem crossing_in_window (p : Particle) (bounds : Bounds) (dt : ℚ) :
    ∀ t ∈ crossingTimes p bounds dt, 0 ≤ t ∧ t ≤ dt := by
  intro t ht
  simp only [crossingTimes] at ht
  split_ifs at ht <;> simp_all <;> rcases ht with rfl | rfl <;> assumption

set_option maxHeartbeats 1000000 in
/-- `boundary_toi` computes the minimum of the axis-crossing candidates. -/
theorem boundary_eq_min (p : Particle) (bounds : Bounds) (dt : ℚ) :
    Detector.boundary_toi p bounds dt = listMin (crossingTimes p bounds dt) := by
  simp only [Detector.boundary_toi, crossingTimes]
  split_ifs <;> simp_all [listMin]

/-- A `some` answer of the boundary kernel lies inside `[0, dt]`. -/
theorem boundary_toi_some_bounds (p : Particle) (bounds : Bounds) (dt t : ℚ)
    (h : Detector.boundary_toi p bounds dt = some t) : 0 ≤ t ∧ t ≤ dt := by
  rw [boundary_eq_min] at h
  exact crossing_in_window p bounds dt t (listMin_mem _ _ h)

/-- The candidate-loop step keeps the adaptive window below `dt` and any
best TOI inside `[0, dt]`. -/
theorem scanStep_inv (sqrtf : ℚ → ℚ) (particles : List Particle) (i j : ℕ)
    (p : Particle) (dt : ℚ) (acc : Option Toi × ℚ) (h1 : acc.2 ≤ dt)
    (h2 : ∀ toi, acc.1 = some toi → 0 ≤ toi.time ∧ toi.time ≤ dt) :
    (Detector.scanStep sqrtf particles i p acc j).2 ≤ dt ∧
    ∀ toi, (Detector.scanStep sqrtf particles i p acc j).1 = some toi →
      0 ≤ toi.time ∧ toi.time ≤ dt := by
  unfold Detector.scanStep
  split_ifs with hji
  · exact ⟨h1, h2⟩
  · cases hp : Detector.p2p_toi sqrtf p (particles.getD j default) acc.2 with
    | none => exact ⟨h1, h2⟩
    | some t =>
      have hb := p2p_toi_some_bounds _ _ _ _ _ hp
      by_cases hcond : isSomeAnd acc.1 (fun toi => decide (t ≥ toi.time)) = true
      · simp only [hcond, if_pos]
        exact ⟨h1, h2⟩
      · simp only [hcond, if_neg, Bool.not_eq_true]
        refine ⟨le_trans hb.2 h1, ?_⟩
        intro toi ht
        cases ht
        exact ⟨hb.1, le_trans hb.2 h1⟩

/-- The whole candidate fold preserves the same invariant. -/
theorem scan_foldl_inv (sqrtf : ℚ → ℚ) (particles : List Particle) (i : ℕ)
    (p : Particle) (dt : ℚ) :
    ∀ (js : List ℕ) (acc : Option Toi × ℚ), acc.2 ≤ dt →
      (∀ toi, acc.1 = some toi → 0 ≤ toi.time ∧ toi.time ≤ dt) →
      (js.foldl (Detector.scanStep sqrtf particles i p) acc).2 ≤ dt ∧
      ∀ toi, (js.foldl (Detector.scanStep sqrtf particles i p) acc).1 = some toi →
        0 ≤ toi.time ∧ toi.time ≤ dt := by
  intro js
  induction js with
  | nil => intro acc h1 h2; exact ⟨h1, h2⟩
  | cons j js ih =>
    intro acc h1 h2
    have hstep := scanStep_inv sqrtf particles i j p dt acc h1 h2
    exact ih _ hstep.1 hstep.2

/-- The boundary step of the scan keeps any produced TOI inside `[0, dt]`. -/
theorem scanBoundary_bounds (bounds : Bounds) (i : ℕ) (p : Particle) (dt : ℚ)
    (res : Option Toi × ℚ) (toi : Toi) (h1 : res.2 ≤ dt)
    (h2 : ∀ toi, res.1 = some toi → 0 ≤ toi.time ∧ toi.time ≤ dt)
    (h : Detector.scanBoundary bounds i p res = some toi) :
    0 ≤ toi.time ∧ toi.time ≤ dt := by
  cases hb : Detector.boundary_toi p bounds res.2 with
  | none =>
    simp only [Detector.scanBoundary, hb] at h
    exact h2 toi h
  | some t =>
    simp only [Detector.scanBoundary, hb] at h
    have hbb := boundary_toi_some_bounds _ _ _ _ hb
    split_ifs at h with hcond
    · exact h2 toi h
    · cases h
      exact ⟨hbb.1, le_trans hbb.2 h1⟩

/-- Any TOI produced by the per-particle scan lies inside `[0, dt]`. -/
theorem scanParticle_some_bounds (sqrtf : ℚ → ℚ) (grid : SpatialGrid)
    (particles : List Particle) (bounds : Bounds) (dt : ℚ) (i : ℕ) (p : Particle)
    (toi : Toi) (h : Detector.scanParticle sqrtf grid particles bounds dt i p = some toi) :
    0 ≤ toi.time ∧ toi.time ≤ dt := by
  unfold Detector.scanParticle at h
  have inv := scan_foldl_inv sqrtf particles i p dt (grid.cell_list p) (none, dt)
    (le_refl dt) (by intro toi ht; cases ht)
  exact scanBoundary_bounds bounds i p dt _ toi inv.1 inv.2 h

/-- `minBy` only ever returns an element of the folded list or the seed. -/
theorem foldl_minBy_prop (P : Toi → Prop) :
    ∀ (l : List Toi) (acc : Option Toi), (∀ x ∈ l, P x) →
      (∀ t, acc = some t → P t) → ∀ t, l.foldl Detector.minBy acc = some t → P t := by
  intro l
  induction l with
  | nil => intro acc h1 h2; simpa using h2
  | cons x xs ih =>
    intro acc h1 h2
    simp only [List.foldl_cons]
    apply ih _ (fun y hy => h1 y (List.mem_cons_of_mem _ hy))
    intro t ht
    cases acc with
    | none =>
      simp only [Detector.minBy] at ht
      cases ht
      exact h1 x (List.mem_cons_self x xs)
    | some best =>
      simp only [Detector.minBy] at ht
      split_ifs at ht <;> cases ht
      · exact h1 x (List.mem_cons_self x xs)
      · exact h2 _ rfl

/-- C7: whenever `p2p_toi` or `boundary_toi` answers `Some(t)`, `t` lies in
`[0, dt]`; hence every TOI produced by the per-particle scan of
`CellListDetector::find_min_toi`, and the reduced global minimum, carries a
time in `[0, dt]`.  (Over the exact rationals of this embedding such values
are never-NaN by construction and their order is total, which is the
content of the never-panicking `partial_cmp(..).unwrap()`.) -/
theorem claim_C7_toi_values_in_window (sqrtf : ℚ → ℚ) (grid : SpatialGrid)
    (particles : List Particle) (bounds : Bounds) (dt : ℚ) (i : ℕ)
    (p p1 p2 : Particle) :
    (∀ t, Detector.p2p_toi sqrtf p1 p2 dt = some t → 0 ≤ t ∧ t ≤ dt) ∧
    (∀ t, Detector.boundary_toi p bounds dt = some t → 0 ≤ t ∧ t ≤ dt) ∧
    (∀ toi, Detector.scanParticle sqrtf grid particles bounds dt i p = some toi →
      0 ≤ toi.time ∧ toi.time ≤ dt) ∧
    (∀ toi, Detector.find_min_toi sqrtf grid particles bounds dt = some toi →
      0 ≤ toi.time ∧ toi.time ≤ dt) := by
  refine ⟨fun t ht => p2p_toi_some_bounds _ _ _ _ _ ht,
    fun t ht => boundary_toi_some_bounds _ _ _ _ ht,
    fun toi ht => scanParticle_some_bounds _ _ _ _ _ _ _ _ ht, ?_⟩
  intro toi ht
  refine foldl_minBy_prop (fun x => 0 ≤ x.time ∧ x.time ≤ dt) _ none ?_ (by intro t h; cases h) toi ht
  intro x hx
  obtain ⟨ip, _, hip⟩ := List.mem_filterMap.mp hx
  exact scanParticle_some_bounds _ _ _ _ _ _ _ _ hip

/-- Witness for C7: a concrete boundary crossing (spec scenario 2). -/
theorem claim_C7_toi_values_in_window_witness :
    (0 : ℚ) ≤ 397 / 500 ∧ (397 : ℚ) / 500 ≤ 1 :=
  (claim_C7_toi_values_in_window natSqrtQ (SpatialGrid.new 20) [] ⟨800, 600⟩ 1 0
      ⟨⟨0, 0⟩, ⟨500, 0⟩, 3, 1⟩ default default).2.1 (397 / 500)
    (by norm_num [Detector.boundary_toi, Bounds.half_extents])

/-- C6: `boundary_toi` returns the minimum of the axis-crossing candidate
times — for each axis with non-zero velocity component, the time to the
clamped-interval edge in the direction of motion, kept only when it lies in
`[0, dt]` — and `none` when no such crossing occurs within the window. -/
theorem claim_C6_boundary_toi_min (p : Particle) (bounds : Bounds) (dt : ℚ) :
    Detector.boundary_toi p bounds dt = listMin (crossingTimes p bounds dt) :=
  boundary_eq_min p bounds dt

/-- C5: the Pair branch of `resolve_collision` is a strict no-op (identical
particle list, no event written) when the squared distance is zero or the
relative normal velocity is non-negative; and every pair event it does emit
records a strictly negative `v_rel_n_before`. -/
theorem claim_C5_separating_pair_noop (sqrtf : ℚ → ℚ) (particles : List Particle)
    (bounds : Bounds) (t : ℚ) (i j : ℕ) :
    ((Solver.pairDist2 particles i j = 0 ∨ 0 ≤ Solver.pairVreln sqrtf particles i j) →
      Solver.resolve_collision sqrtf particles bounds ⟨t, Collision.Pair i j⟩
        = (particles, [])) ∧
    (∀ t2 i2 j2 nx ny vb va,
      Event.pair t2 i2 j2 nx ny vb va ∈
        (Solver.resolve_collision sqrtf particles bounds ⟨t, Collision.Pair i j⟩).2 →
      vb < 0) := by
  constructor
  · intro h
    by_cases hd : Solver.pairDist2 particles i j = 0
    · simp [Solver.resolve_collision, hd]
    · have hv : 0 ≤ Solver.pairVreln sqrtf particles i j := h.resolve_left hd
      simp [Solver.resolve_collision, hd, ge_iff_le, hv]
  · intro t2 i2 j2 nx ny vb va hmem
    by_cases hd : Solver.pairDist2 particles i j = 0
    · simp [Solver.resolve_collision, hd] at hmem
    · by_cases hv : 0 ≤ Solver.pairVreln sqrtf particles i j
      · simp [Solver.resolve_collision, hd, ge_iff_le, hv] at hmem
      · simp only [Solver.resolve_collision, if_neg hd, ge_iff_le, if_neg hv] at hmem
        simp only [List.mem_singleton, Event.pair.injEq] at hmem
        obtain ⟨-, -, -, -, -, hvb, -⟩ := hmem
        rw [hvb]
        exact lt_of_not_le hv

/-- Witness for C5: two coincident particles (spec scenario 3) — the
resolution leaves the state untouched and writes nothing. -/
theorem claim_C5_separating_pair_noop_witness :
    Solver.resolve_collision natSqrtQ
        [⟨⟨0, 0⟩, ⟨0, 0⟩, 1, 1⟩, ⟨⟨0, 0⟩, ⟨0, 0⟩, 1, 1⟩] ⟨800, 600⟩
        ⟨0, Collision.Pair 0 1⟩
      = ([⟨⟨0, 0⟩, ⟨0, 0⟩, 1, 1⟩, ⟨⟨0, 0⟩, ⟨0, 0⟩, 1, 1⟩], []) :=
  (claim_C5_separating_pair_noop natSqrtQ _ _ 0 0 1).1
    (Or.inl (by norm_num [Solver.pairDist2, Solver.pairN, Vec2.dot, Vec2.sub_def, List.getD]))

/-- Elastic-impulse scalar algebra: with a unit normal `(nx, ny)` and the
impulse of the Pair branch, total momentum and kinetic energy are preserved
and the relative normal velocity reverses. -/
theorem elastic_scalar (m1 m2 nx ny v1x v1y v2x v2y w1x w1y w2x w2y : ℚ)
    (hm1 : m1 ≠ 0) (hm2 : m2 ≠ 0) (hm12 : m1 + m2 ≠ 0) (hn : nx^2 + ny^2 = 1)
    (hw1x : w1x = v1x + 2*m1*m2/(m1+m2) * ((v2x - v1x)*nx + (v2y - v1y)*ny) * nx / m1)
    (hw1y : w1y = v1y + 2*m1*m2/(m1+m2) * ((v2x - v1x)*nx + (v2y - v1y)*ny) * ny / m1)
    (hw2x : w2x = v2x - 2*m1*m2/(m1+m2) * ((v2x - v1x)*nx + (v2y - v1y)*ny) * nx / m2)
    (hw2y : w2y = v2y - 2*m1*m2/(m1+m2) * ((v2x - v1x)*nx + (v2y - v1y)*ny) * ny / m2) :
    (m1*w1x + m2*w2x = m1*v1x + m2*v2x) ∧ (m1*w1y + m2*w2y = m1*v1y + m2*v2y) ∧
    (1/2*m1*(w1x^2+w1y^2) + 1/2*m2*(w2x^2+w2y^2)
      = 1/2*m1*(v1x^2+v1y^2) + 1/2*m2*(v2x^2+v2y^2)) ∧
    ((w2x - w1x)*nx + (w2y - w1y)*ny = -((v2x - v1x)*nx + (v2y - v1y)*ny)) := by
  subst hw1x hw1y hw2x hw2y
  have hke : 1/2*m1*((v1x + 2*m1*m2/(m1+m2) * ((v2x - v1x)*nx + (v2y - v1y)*ny) * nx / m1)^2
        + (v1y + 2*m1*m2/(m1+m2) * ((v2x - v1x)*nx + (v2y - v1y)*ny) * ny / m1)^2)
      + 1/2*m2*((v2x - 2*m1*m2/(m1+m2) * ((v2x - v1x)*nx + (v2y - v1y)*ny) * nx / m2)^2
        + (v2y - 2*m1*m2/(m1+m2) * ((v2x - v1x)*nx + (v2y - v1y)*ny) * ny / m2)^2)
      - (1/2*m1*(v1x^2+v1y^2) + 1/2*m2*(v2x^2+v2y^2))
      = (2*m1*m2/(m1+m2)) * ((v2x - v1x)*nx + (v2y - v1y)*ny)^2 * ((nx^2 + ny^2) - 1) := by
    field_simp
    ring
  have hrev : (v2x - 2*m1*m2/(m1+m2) * ((v2x - v1x)*nx + (v2y - v1y)*ny) * nx / m2
        - (v1x + 2*m1*m2/(m1+m2) * ((v2x - v1x)*nx + (v2y - v1y)*ny) * nx / m1))*nx
      + (v2y - 2*m1*m2/(m1+m2) * ((v2x - v1x)*nx + (v2y - v1y)*ny) * ny / m2
        - (v1y + 2*m1*m2/(m1+m2) * ((v2x - v1x)*nx + (v2y - v1y)*ny) * ny / m1))*ny
      = ((v2x - v1x)*nx + (v2y - v1y)*ny) * (1 - 2*(nx^2 + ny^2)) := by
    field_simp
    ring
  rw [hn] at hke hrev
  refine ⟨by field_simp; ring, by field_simp; ring, by linarith [hke], ?_⟩
  rw [hrev]
  ring

set_option maxHeartbeats 1000000 in
/-- C4: in exact arithmetic, when the Pair branch of `resolve_collision`
applies the impulse (positive masses, non-zero distance, approaching normal
velocity, and the square-root oracle exact at the squared distance), total
linear momentum and total kinetic energy are preserved and the relative
normal velocity reverses. -/
theorem claim_C4_elastic_pair_impulse (sqrtf : ℚ → ℚ) (particles : List Particle)
    (bounds : Bounds) (t : ℚ) (i j : ℕ)
    (hij : i ≠ j) (hi : i < particles.length) (hj : j < particles.length)
    (hm1 : 0 < (particles.getD i default).mass)
    (hm2 : 0 < (particles.getD j default).mass)
    (hd : Solver.pairDist2 particles i j ≠ 0)
    (hs : sqrtf (Solver.pairDist2 particles i j) * sqrtf (Solver.pairDist2 particles i j)
        = Solver.pairDist2 particles i j)
    (hv : Solver.pairVreln sqrtf particles i j < 0) :
    ((Solver.resolve_collision sqrtf particles bounds ⟨t, Collision.Pair i j⟩).1.getD i
          default).velocity.scale (particles.getD i default).mass
        + ((Solver.resolve_collision sqrtf particles bounds ⟨t, Collision.Pair i j⟩).1.getD j
          default).velocity.scale (particles.getD j default).mass
      = (particles.getD i default).velocity.scale (particles.getD i default).mass
        + (particles.getD j default).velocity.scale (particles.getD j default).mass ∧
    1/2 * (particles.getD i default).mass
          * ((Solver.resolve_collision sqrtf particles bounds ⟨t, Collision.Pair i j⟩).1.getD i
            default).velocity.length_squared
        + 1/2 * (particles.getD j default).mass
          * ((Solver.resolve_collision sqrtf particles bounds ⟨t, Collision.Pair i j⟩).1.getD j
            default).velocity.length_squared
      = 1/2 * (particles.getD i default).mass
          * (particles.getD i default).velocity.length_squared
        + 1/2 * (particles.getD j default).mass
          * (particles.getD j default).velocity.length_squared ∧
    (((Solver.resolve_collision sqrtf particles bounds ⟨t, Collision.Pair i j⟩).1.getD j
          default).velocity
        - ((Solver.resolve_collision sqrtf particles bounds ⟨t, Collision.Pair i j⟩).1.getD i
          default).velocity).dot (Solver.pairNhat sqrtf particles i j)
      = -(((particles.getD j default).velocity - (particles.getD i default).velocity).dot
          (Solver.pairNhat sqrtf particles i j)) := by
  have hs0 : sqrtf (Solver.pairDist2 particles i j) ≠ 0 := by
    intro h0
    exact hd (by rw [← hs, h0, mul_zero])
  have hm1' : (particles.getD i default).mass ≠ 0 := ne_of_gt hm1
  have hm2' : (particles.getD j default).mass ≠ 0 := ne_of_gt hm2
  have hm12 : (particles.getD i default).mass + (particles.getD j default).mass ≠ 0 :=
    ne_of_gt (by linarith)
  have hres : (Solver.resolve_collision sqrtf particles bounds ⟨t, Collision.Pair i j⟩).1
      = (particles.set i
          { particles.getD i default with
            velocity := (particles.getD i default).velocity +
              ((Solver.pairNhat sqrtf particles i j).scale
                (2 * (particles.getD i default).mass * (particles.getD j default).mass /
                  ((particles.getD i default).mass + (particles.getD j default).mass) *
                  Solver.pairVreln sqrtf particles i j)).divScalar
                (particles.getD i default).mass }).set j
          { particles.getD j default with
            velocity := (particles.getD j default).velocity -
              ((Solver.pairNhat sqrtf particles i j).scale
                (2 * (particles.getD i default).mass * (particles.getD j default).mass /
                  ((particles.getD i default).mass + (particles.getD j default).mass) *
                  Solver.pairVreln sqrtf particles i j)).divScalar
                (particles.getD j default).mass } := by
    simp only [Solver.resolve_collision, hd, hv.not_le, ge_iff_le, if_false, ite_false,
      List.getD_eq_getElem?_getD, List.getElem?_set_ne hij]
  have hq1 : (Solver.resolve_collision sqrtf particles bounds ⟨t, Collision.Pair i j⟩).1.getD i
      default
      = { particles.getD i default with
          velocity := (particles.getD i default).velocity +
            ((Solver.pairNhat sqrtf particles i j).scale
              (2 * (particles.getD i default).mass * (particles.getD j default).mass /
                ((particles.getD i default).mass + (particles.getD j default).mass) *
                Solver.pairVreln sqrtf particles i j)).divScalar
              (particles.getD i default).mass } := by
    rw [hres]
    simp [List.getD_eq_getElem?_getD, List.getElem?_set_ne (Ne.symm hij),
      List.getElem?_set_self, hi]
  have hq2 : (Solver.resolve_collision sqrtf particles bounds ⟨t, Collision.Pair i j⟩).1.getD j
      default
      = { particles.getD j default with
          velocity := (particles.getD j default).velocity -
            ((Solver.pairNhat sqrtf particles i j).scale
              (2 * (particles.getD i default).mass * (particles.getD j default).mass /
                ((particles.getD i default).mass + (particles.getD j default).mass) *
                Solver.pairVreln sqrtf particles i j)).divScalar
              (particles.getD j default).mass } := by
    rw [hres]
    simp [List.getD_eq_getElem?_getD, List.getElem?_set_self, hj]
  have hn : (Solver.pairNhat sqrtf particles i j).x ^ 2
      + (Solver.pairNhat sqrtf particles i j).y ^ 2 = 1 := by
    have hdist : Solver.pairDist2 particles i j
        = (Solver.pairN particles i j).x * (Solver.pairN particles i j).x
          + (Solver.pairN particles i j).y * (Solver.pairN particles i j).y := rfl
    simp only [Solver.pairNhat, Vec2.divScalar]
    rw [div_pow, div_pow, div_add_div_same]
    rw [div_eq_one_iff_eq (by positivity)]
    rw [sq (sqrtf (Solver.pairDist2 particles i j)), hs, hdist]
    ring
  have hvrel : Solver.pairVreln sqrtf particles i j
      = (((particles.getD j default).velocity.x - (particles.getD i default).velocity.x)
          * (Solver.pairNhat sqrtf particles i j).x
        + ((particles.getD j default).velocity.y - (particles.getD i default).velocity.y)
          * (Solver.pairNhat sqrtf particles i j).y) := by
    simp only [Solver.pairVreln, Vec2.dot, Vec2.sub_def]
  have key := elastic_scalar (particles.getD i default).mass (particles.getD j default).mass
    (Solver.pairNhat sqrtf particles i j).x (Solver.pairNhat sqrtf particles i j).y
    (particles.getD i default).velocity.x (particles.getD i default).velocity.y
    (particles.getD j default).velocity.x (particles.getD j default).velocity.y
    ((Solver.resolve_collision sqrtf particles bounds ⟨t, Collision.Pair i j⟩).1.getD i
      default).velocity.x
    ((Solver.resolve_collision sqrtf particles bounds ⟨t, Collision.Pair i j⟩).1.getD i
      default).velocity.y
    ((Solver.resolve_collision sqrtf particles bounds ⟨t, Collision.Pair i j⟩).1.getD j
      default).velocity.x
    ((Solver.resolve_collision sqrtf particles bounds ⟨t, Collision.Pair i j⟩).1.getD j
      default).velocity.y
    hm1' hm2' hm12 hn
    (by rw [hq1]; simp [Vec2.add_def, Vec2.scale, Vec2.divScalar, hvrel]; ring)
    (by rw [hq1]; simp [Vec2.add_def, Vec2.scale, Vec2.divScalar, hvrel]; ring)
    (by rw [hq2]; simp [Vec2.sub_def, Vec2.scale, Vec2.divScalar, hvrel]; ring)
    (by rw [hq2]; simp [Vec2.sub_def, Vec2.scale, Vec2.divScalar, hvrel]; ring)
  refine ⟨?_, ?_, ?_⟩
  · show Vec2.mk _ _ + Vec2.mk _ _ = Vec2.mk _ _ + Vec2.mk _ _
    simp only [Vec2.add_def, Vec2.mk.injEq]
    constructor
    · linarith [key.1]
    · linarith [key.2.1]
  · simp only [Vec2.length_squared]
    nlinarith [key.2.2.1]
  · simp only [Vec2.dot, Vec2.sub_def]
    nlinarith [key.2.2.2]

/-- Witness for C4: the head-on equal-mass pair of `wParticles`. -/
theorem claim_C4_elastic_pair_impulse_witness :
    ((Solver.resolve_collision natSqrtQ wParticles ⟨800, 600⟩
            ⟨9/20, Collision.Pair 0 1⟩).1.getD 0
          default).velocity.scale (wParticles.getD 0 default).mass
        + ((Solver.resolve_collision natSqrtQ wParticles ⟨800, 600⟩
            ⟨9/20, Collision.Pair 0 1⟩).1.getD 1
          default).velocity.scale (wParticles.getD 1 default).mass
      = (wParticles.getD 0 default).velocity.scale (wParticles.getD 0 default).mass
        + (wParticles.getD 1 default).velocity.scale (wParticles.getD 1 default).mass ∧
    1/2 * (wParticles.getD 0 default).mass
          * ((Solver.resolve_collision natSqrtQ wParticles ⟨800, 600⟩
              ⟨9/20, Collision.Pair 0 1⟩).1.getD 0 default).velocity.length_squared
        + 1/2 * (wParticles.getD 1 default).mass
          * ((Solver.resolve_collision natSqrtQ wParticles ⟨800, 600⟩
              ⟨9/20, Collision.Pair 0 1⟩).1.getD 1 default).velocity.length_squared
      = 1/2 * (wParticles.getD 0 default).mass
          * (wParticles.getD 0 default).velocity.length_squared
        + 1/2 * (wParticles.getD 1 default).mass
          * (wParticles.getD 1 default).velocity.length_squared ∧
    (((Solver.resolve_collision natSqrtQ wParticles ⟨800, 600⟩
            ⟨9/20, Collision.Pair 0 1⟩).1.getD 1 default).velocity
        - ((Solver.resolve_collision natSqrtQ wParticles ⟨800, 600⟩
            ⟨9/20, Collision.Pair 0 1⟩).1.getD 0 default).velocity).dot
        (Solver.pairNhat natSqrtQ wParticles 0 1)
      = -(((wParticles.getD 1 default).velocity - (wParticles.getD 0 default).velocity).dot
          (Solver.pairNhat natSqrtQ wParticles 0 1)) :=
  claim_C4_elastic_pair_impulse natSqrtQ wParticles ⟨800, 600⟩ (9/20) 0 1
    (by decide) (by norm_num [wParticles]) (by norm_num [wParticles])
    (by norm_num [wParticles, List.getD_cons_zero])
    (by norm_num [wParticles, List.getD_cons_zero, List.getD_cons_succ])
    (by norm_num [Solver.pairDist2, Solver.pairN, Vec2.dot, Vec2.sub_def, wParticles,
      List.getD_cons_zero, List.getD_cons_succ])
    (by
      have h4 : Solver.pairDist2 wParticles 0 1 = 4 := by
        norm_num [Solver.pairDist2, Solver.pairN, Vec2.dot, Vec2.sub_def, wParticles,
          List.getD_cons_zero, List.getD_cons_succ]
      rw [h4]
      norm_num [natSqrtQ])
    (by
      have h4 : Solver.pairDist2 wParticles 0 1 = 4 := by
        norm_num [Solver.pairDist2, Solver.pairN, Vec2.dot, Vec2.sub_def, wParticles,
          List.getD_cons_zero, List.getD_cons_succ]
      unfold Solver.pairVreln Solver.pairNhat
      rw [h4]
      norm_num [natSqrtQ, Solver.pairN, Vec2.dot, Vec2.sub_def, Vec2.divScalar, wParticles,
        List.getD_cons_zero, List.getD_cons_succ])

/-- The final clamp never changes a particle's radius. -/
theorem clampParticle_radius (bounds : Bounds) (p : Particle) :
    (Solver.clampParticle bounds p).radius = p.radius := by
  simp only [Solver.clampParticle]
  split_ifs <;> rfl

set_option maxHeartbeats 1000000 in
/-- A clamped particle with a radius fitting the arena lies in its valid
interval. -/
theorem clampParticle_contained (bounds : Bounds) (p : Particle)
    (hw : p.radius ≤ bounds.width / 2) (hh : p.radius ≤ bounds.height / 2) :
    inClampedInterval bounds (Solver.clampParticle bounds p) := by
  simp only [Solver.clampParticle, inClampedInterval, Bounds.half_extents]
  split_ifs <;> refine ⟨?_, ?_, ?_, ?_⟩ <;> simp_all <;> linarith

/-- C3: after `Solver::solve` — any detector, any number of sub-iterations,
cap exhausted or not — every returned particle whose radius fits the arena
lies inside its clamped interval. -/
theorem claim_C3_solve_contained (detect : List Particle → Bounds → ℚ → Option Toi)
    (sqrtf : ℚ → ℚ) (particles : List Particle) (bounds : Bounds) (dt : ℚ)
    (hdt : 0 ≤ dt) (q : Particle)
    (hq : q ∈ (Solver.solve detect sqrtf particles bounds dt).1)
    (hw : q.radius ≤ bounds.width / 2) (hh : q.radius ≤ bounds.height / 2) :
    inClampedInterval bounds q := by
  simp only [Solver.solve, Solver.clamp_particles] at hq
  obtain ⟨p, hp, rfl⟩ := List.mem_map.mp hq
  rw [clampParticle_radius] at hw hh
  exact clampParticle_contained bounds p hw hh

/-- Witness for C3: a single resting particle survives a zero-length frame
inside its interval. -/
theorem claim_C3_solve_contained_witness :
    inClampedInterval ⟨800, 600⟩ ⟨⟨0, 0⟩, ⟨0, 0⟩, 1, 1⟩ :=
  claim_C3_solve_contained (fun _ _ _ => none) natSqrtQ [⟨⟨0, 0⟩, ⟨0, 0⟩, 1, 1⟩]
    ⟨800, 600⟩ 0 le_rfl ⟨⟨0, 0⟩, ⟨0, 0⟩, 1, 1⟩
    (by
      simp only [Solver.solve, Solver.MAX_ITER]
      rw [show (100 : ℕ) = 99 + 1 from rfl]
      simp only [Solver.solveLoop]
      norm_num [Solver.EPS_T, Solver.advance_all, Solver.clamp_particles,
        Solver.clampParticle, Bounds.half_extents, Vec2.scale, Vec2.add_def])
    (by norm_num) (by norm_num)

/-- C8 (amended): the missed-collision scan records exactly the unordered
key pairs drawn from the earlier window's key list whose pair TOI over
`[0, Δt]` is finite and which no Pair event matches in either order — the
later window's contents are never consulted. -/
theorem claim_C8_missed_scan_earlier_window (sqrtf : ℚ → ℚ)
    (curr next : Validator.FrameWindow) (events : List Validator.EventRow)
    (dt : ℚ) (r : Validator.MissedCollision) :
    r ∈ Validator.find_missed_collisions sqrtf curr next events dt ↔
    ∃ i j, (i, j) ∈ Validator.keyPairs (curr.particles.map Prod.fst) ∧
      ∃ ti, Comp.p2p_toi sqrtf (Validator.lookupState curr.particles i)
          (Validator.lookupState curr.particles j) dt = some ti ∧
        Validator.pairReported events i j = false ∧
        r = ⟨next.frame, i, j,
          (Validator.lookupState curr.particles i).position.x,
          (Validator.lookupState curr.particles i).position.y,
          (Validator.lookupState curr.particles j).position.x,
          (Validator.lookupState curr.particles j).position.y, ti⟩ := by
  simp only [Validator.find_missed_collisions, List.mem_filterMap]
  constructor
  · rintro ⟨⟨i, j⟩, hmem, hf⟩
    refine ⟨i, j, hmem, ?_⟩
    dsimp only at hf
    cases htoi : Comp.p2p_toi sqrtf (Validator.lookupState curr.particles i)
        (Validator.lookupState curr.particles j) dt with
    | none => rw [htoi] at hf; cases hf
    | some ti =>
      rw [htoi] at hf
      dsimp only at hf
      refine ⟨ti, rfl, ?_⟩
      by_cases hrep : Validator.pairReported events i j = true
      · rw [if_pos hrep] at hf; cases hf
      · rw [if_neg hrep] at hf
        cases hf
        exact ⟨Bool.not_eq_true _ ▸ hrep, rfl⟩
  · rintro ⟨i, j, hmem, ti, htoi, hrep, rfl⟩
    refine ⟨(i, j), hmem, ?_⟩
    dsimp only
    simp [htoi, hrep]

/-- Counterexample for C8 as frozen: with `w8prev`/`w8next` the scan
records a miss for the pair `{0, 1}` although particle `1` is not present
in the later window — the claim's "present in both windows" fails. -/
theorem claim_C8_counterexample :
    Validator.find_missed_collisions natSqrtQ w8prev w8next [] 2
      = [⟨5, 0, 1, 0, 0, 3, 0, 1⟩] ∧
    ¬ (1 ∈ w8next.particles.map Prod.fst) := by
  constructor
  · have hl0 : Validator.lookupState w8prev.particles 0 = ⟨⟨0, 0⟩, ⟨1, 0⟩, 1, 1⟩ := rfl
    have hl1 : Validator.lookupState w8prev.particles 1 = ⟨⟨3, 0⟩, ⟨0, 0⟩, 1, 1⟩ := rfl
    have htoi : Comp.p2p_toi natSqrtQ ⟨⟨0, 0⟩, ⟨1, 0⟩, 1, 1⟩ ⟨⟨3, 0⟩, ⟨0, 0⟩, 1, 1⟩ 2
        = some 1 := by
      norm_num [Comp.p2p_toi, epsA, Vec2.sub_def, Vec2.dot, natSqrtQ]
    simp only [Validator.find_missed_collisions]
    rw [show Validator.keyPairs (List.map Prod.fst w8prev.particles) = [(0, 1)] from rfl]
    simp only [List.filterMap_cons, List.filterMap_nil]
    rw [hl0, hl1, htoi]
    rw [show Validator.pairReported [] 0 1 = false from rfl]
    simp [w8next]
  · simp [w8next]

/-- C10: when the previous frame's total kinetic energy is exactly zero,
the unfloored energy denominator makes the energy relative error `0/0 = NaN`
(never compared greater than the tolerance) if the current total is also
zero — so only the momentum comparisons can record a violation — and `+∞`
(always a violation) if the current total is non-zero. -/
theorem claim_C10_energy_denominator_not_floored (tol : ℚ)
    (curr next : Validator.FrameWindow) (htol : 0 ≤ tol)
    (hprev : (Validator.compute_totals curr.particles).1 = 0) :
    ((Validator.compute_totals next.particles).1 = 0 →
      ((Validator.check_conservation tol curr next).isSome = true ↔
        |((Validator.compute_totals next.particles).2.1
            - (Validator.compute_totals curr.particles).2.1)
          / max |(Validator.compute_totals curr.particles).2.1| (1/1000000)| > tol ∨
        |((Validator.compute_totals next.particles).2.2
            - (Validator.compute_totals curr.particles).2.2)
          / max |(Validator.compute_totals curr.particles).2.2| (1/1000000)| > tol)) ∧
    ((Validator.compute_totals next.particles).1 ≠ 0 →
      (Validator.check_conservation tol curr next).isSome = true) := by
  constructor
  · intro hcurr
    simp only [Validator.check_conservation, Validator.fdivAbs, hprev, hcurr]
    norm_num [Validator.XF.gtQ]
  · intro hcurr
    simp only [Validator.check_conservation, Validator.fdivAbs, hprev]
    norm_num [hcurr, Validator.XF.gtQ]

/-- An exhausted iterator yields nothing more. -/
theorem ray_next_of_done (s : GridRayIter) (h : s.done = true) :
    GridRayIter.next s = none := by
  simp [GridRayIter.next, h]

/-- A live iterator always yields a cell and a successor state. -/
theorem ray_next_of_not_done (s : GridRayIter) (hd : s.done = false) :
    ∃ c s', GridRayIter.next s = some (c, s') := by
  unfold GridRayIter.next
  rw [if_neg (by simp [hd])]
  split_ifs <;> exact ⟨_, _, rfl⟩

/-- Advancing an active axis keeps it well-formed. -/
theorem axisWF_add (tm td : ExtQ) (h : GridRayIter.axisWF tm td) :
    GridRayIter.axisWF (tm.add td) td := by
  cases tm <;> cases td <;> simp_all [GridRayIter.axisWF, ExtQ.add]

/-- `next` preserves well-formedness. -/
theorem ray_WF_next (s : GridRayIter) (c : ℤ × ℤ) (s' : GridRayIter)
    (h : GridRayIter.next s = some (c, s')) (hwf : GridRayIter.WF s) :
    GridRayIter.WF s' := by
  by_cases hd : s.done = true
  · rw [ray_next_of_done s hd] at h; cases h
  · rw [GridRayIter.next, if_neg hd] at h
    split_ifs at h <;>
      (injection h with h'
       rw [Prod.mk.injEq] at h'
       obtain ⟨-, h2⟩ := h'
       subst h2) <;>
      first
        | exact hwf
        | exact ⟨axisWF_add _ _ hwf.1, hwf.2⟩
        | exact ⟨hwf.1, axisWF_add _ _ hwf.2⟩

/-- One in-window axis step strictly shrinks that axis's budget. -/
theorem axisBudget_step (a d r : ℚ) (hdpos : 0 < d) (har : a ≤ r) :
    GridRayIter.axisBudget (ExtQ.fin (a + d)) (ExtQ.fin d) r
      < GridRayIter.axisBudget (ExtQ.fin a) (ExtQ.fin d) r := by
  simp only [GridRayIter.axisBudget]
  rw [if_neg (not_lt.mpr har)]
  by_cases hcase : a + d > r
  · rw [if_pos hcase]
    omega
  · rw [if_neg hcase]
    push_neg at hcase
    have hdne : d ≠ 0 := ne_of_gt hdpos
    have hq : (r - (a + d)) / d = (r - a) / d - 1 := by field_simp; ring
    have hfl : ⌊(r - (a + d)) / d⌋ = ⌊(r - a) / d⌋ - 1 := by
      rw [hq, Int.floor_sub_one]
    have hge1 : (1 : ℚ) ≤ (r - a) / d := by
      rw [le_div_iff hdpos]
      linarith
    have h1 : 1 ≤ ⌊(r - a) / d⌋ := Int.le_floor.mpr (by exact_mod_cast hge1)
    omega

/-- A `next` step that does not exhaust the iterator strictly decreases the
step bound. -/
theorem ray_stepsBound_decrease (s : GridRayIter) (c : ℤ × ℤ) (s' : GridRayIter)
    (h : GridRayIter.next s = some (c, s')) (hwf : GridRayIter.WF s)
    (hd' : s'.done = false) :
    GridRayIter.stepsBound s' < GridRayIter.stepsBound s := by
  by_cases hd : s.done = true
  · rw [ray_next_of_done s hd] at h; cases h
  · have hdf : s.done = false := by simpa using hd
    rw [GridRayIter.next, if_neg hd] at h
    split_ifs at h with h1 h2 h3 h4 <;>
      (injection h with h'
       rw [Prod.mk.injEq] at h'
       obtain ⟨-, hs'⟩ := h'
       subst hs')
    · simp at hd'
    · simp at hd'
    · -- x-axis step
      have hwf1 := hwf.1
      cases htm : s.t_max.1 with
      | inf =>
        rw [htm] at h2
        simp [ExtQ.blt] at h2
      | fin a =>
        cases htd : s.t_delta.1 with
        | inf =>
          rw [htm, htd] at hwf1
          simp [GridRayIter.axisWF] at hwf1
        | fin d =>
          rw [htm, htd] at hwf1
          simp only [GridRayIter.axisWF] at hwf1
          rw [htm] at h3
          simp only [ExtQ.bgtQ, decide_eq_true_eq] at h3
          push_neg at h3
          simp only [GridRayIter.stepsBound, hdf, Bool.false_eq_true, if_false]
          rw [htm, htd]
          simp only [ExtQ.add]
          have := axisBudget_step a d s.t_remain hwf1 h3
          omega
    · simp at hd'
    · -- y-axis step
      push_neg at h1
      obtain ⟨hr0, hinf⟩ := h1
      have hwf2 := hwf.2
      cases htm2 : s.t_max.2 with
      | inf =>
        exfalso
        cases htm1 : s.t_max.1 with
        | inf => exact (hinf (by simp [htm1, ExtQ.isInf])) (by simp [htm2, ExtQ.isInf])
        | fin a =>
          rw [htm1, htm2] at h2
          simp [ExtQ.blt] at h2
      | fin b =>
        cases htd2 : s.t_delta.2 with
        | inf =>
          rw [htm2, htd2] at hwf2
          simp [GridRayIter.axisWF] at hwf2
        | fin d2 =>
          rw [htm2, htd2] at hwf2
          simp only [GridRayIter.axisWF] at hwf2
          rw [htm2] at h4
          simp only [ExtQ.bgtQ, decide_eq_true_eq] at h4
          push_neg at h4
          simp only [GridRayIter.stepsBound, hdf, Bool.false_eq_true, if_false]
          rw [htm2, htd2]
          simp only [ExtQ.add]
          have := axisBudget_step b d2 s.t_remain hwf2 h4
          omega

/-- Strong induction on the step bound: a well-formed iterator is exhausted
after finitely many `next` calls. -/
theorem ray_terminates : ∀ (k : ℕ) (s : GridRayIter), GridRayIter.WF s →
    GridRayIter.stepsBound s ≤ k → ∃ n, (GridRayIter.iterate s n).done = true := by
  intro k
  induction k with
  | zero =>
    intro s hwf hm
    by_cases hd : s.done = true
    · exact ⟨0, hd⟩
    · exfalso
      have hdf : s.done = false := by simpa using hd
      simp [GridRayIter.stepsBound, hdf] at hm
  | succ k ih =>
    intro s hwf hm
    by_cases hd : s.done = true
    · exact ⟨0, hd⟩
    · have hdf : s.done = false := by simpa using hd
      obtain ⟨c, s', hnext⟩ := ray_next_of_not_done s hdf
      by_cases hd' : s'.done = true
      · refine ⟨1, ?_⟩
        simpa [GridRayIter.iterate, GridRayIter.stepState, hnext] using hd'
      · have hdf' : s'.done = false := by simpa using hd'
        have hwf' := ray_WF_next s c s' hnext hwf
        have hlt := ray_stepsBound_decrease s c s' hnext hwf hdf'
        obtain ⟨n, hn⟩ := ih s' hwf' (by omega)
        refine ⟨n + 1, ?_⟩
        simpa [GridRayIter.iterate, GridRayIter.stepState, hnext] using hn

set_option maxHeartbeats 1000000 in
/-- `new` produces a well-formed state whenever the cell size is positive. -/
theorem ray_WF_new (origin dir : Vec2) (tmax cell_size : ℚ) (hcs : 0 < cell_size) :
    GridRayIter.WF (GridRayIter.new origin dir tmax cell_size) := by
  have hcsne : cell_size ≠ 0 := ne_of_gt hcs
  unfold GridRayIter.new GridRayIter.WF
  constructor
  · rcases lt_trichotomy dir.x 0 with hx | hx | hx
    · simp only [if_neg (not_lt.mpr (le_of_lt hx)), if_pos hx,
        if_pos (show (-1 : ℤ) ≠ 0 by norm_num), if_pos (ne_of_lt hx),
        ExtQ.max0, ExtQ.absv, GridRayIter.axisWF]
      rw [abs_pos]
      exact mul_ne_zero (mul_ne_zero hcsne (by norm_num)) (one_div_ne_zero (ne_of_lt hx))
    · simp only [hx, lt_irrefl, if_neg (lt_irrefl (0 : ℚ)),
        if_neg (show ¬(0 : ℤ) ≠ 0 by norm_num), ExtQ.max0, ExtQ.absv, GridRayIter.axisWF]
      trivial
    · simp only [if_pos hx, if_pos (show (1 : ℤ) ≠ 0 by norm_num),
        if_pos (ne_of_gt hx), ExtQ.max0, ExtQ.absv, GridRayIter.axisWF]
      rw [abs_pos]
      exact mul_ne_zero (mul_ne_zero hcsne (by norm_num)) (one_div_ne_zero (ne_of_gt hx))
  · rcases lt_trichotomy dir.y 0 with hy | hy | hy
    · simp only [if_neg (not_lt.mpr (le_of_lt hy)), if_pos hy,
        if_pos (show (-1 : ℤ) ≠ 0 by norm_num), if_pos (ne_of_lt hy),
        ExtQ.max0, ExtQ.absv, GridRayIter.axisWF]
      rw [abs_pos]
      exact mul_ne_zero (mul_ne_zero hcsne (by norm_num)) (one_div_ne_zero (ne_of_lt hy))
    · simp only [hy, lt_irrefl, if_neg (lt_irrefl (0 : ℚ)),
        if_neg (show ¬(0 : ℤ) ≠ 0 by norm_num), ExtQ.max0, ExtQ.absv, GridRayIter.axisWF]
      trivial
    · simp only [if_pos hy, if_pos (show (1 : ℤ) ≠ 0 by norm_num),
        if_pos (ne_of_gt hy), ExtQ.max0, ExtQ.absv, GridRayIter.axisWF]
      rw [abs_pos]
      exact mul_ne_zero (mul_ne_zero hcsne (by norm_num)) (one_div_ne_zero (ne_of_gt hy))

/-- An exhausted iterator yields the empty suffix whatever the fuel. -/
theorem runYields_done (s : GridRayIter) (h : s.done = true) :
    ∀ n, GridRayIter.runYields s n = [] := by
  intro n
  cases n with
  | zero => rfl
  | succ n => simp [GridRayIter.runYields, ray_next_of_done s h]

/-- With zero velocity both axes are infinite and the iterator yields
exactly its starting cell. -/
theorem runYields_zero_dir (origin : Vec2) (tmax cell_size : ℚ) :
    ∀ n, 1 ≤ n →
      GridRayIter.runYields (GridRayIter.new origin ⟨0, 0⟩ tmax cell_size) n
        = [(⌊origin.x / cell_size⌋, ⌊origin.y / cell_size⌋)] := by
  intro n hn
  obtain ⟨m, rfl⟩ : ∃ m, n = m + 1 := ⟨n - 1, by omega⟩
  have hnew : GridRayIter.new origin ⟨0, 0⟩ tmax cell_size
      = { cur := (⌊origin.x / cell_size⌋, ⌊origin.y / cell_size⌋), step := (0, 0),
          t_max := (ExtQ.inf, ExtQ.inf), t_delta := (ExtQ.inf, ExtQ.inf),
          t_remain := max tmax 0, done := false } := by
    simp [GridRayIter.new, ExtQ.max0, ExtQ.absv]
  rw [hnew]
  simp only [GridRayIter.runYields]
  rw [show GridRayIter.next
      { cur := (⌊origin.x / cell_size⌋, ⌊origin.y / cell_size⌋), step := ((0:ℤ), (0:ℤ)),
        t_max := (ExtQ.inf, ExtQ.inf), t_delta := (ExtQ.inf, ExtQ.inf),
        t_remain := max tmax 0, done := false }
      = some ((⌊origin.x / cell_size⌋, ⌊origin.y / cell_size⌋),
        { cur := (⌊origin.x / cell_size⌋, ⌊origin.y / cell_size⌋), step := ((0:ℤ), (0:ℤ)),
          t_max := (ExtQ.inf, ExtQ.inf), t_delta := (ExtQ.inf, ExtQ.inf),
          t_remain := max tmax 0, done := true })
    from by simp [GridRayIter.next, ExtQ.isInf]]
  dsimp only
  rw [runYields_done _ rfl]

/-- C9: for every finite origin, direction, window and positive cell size
the grid ray-march iterator is exhausted after finitely many `next` calls
(so it yields finitely many cells); an exhausted iterator yields nothing;
and with zero velocity (both axes at infinite step) it yields exactly the
starting cell. -/
theorem claim_C9_ray_march_finite :
    (∀ (origin dir : Vec2) (tmax cell_size : ℚ), 0 < cell_size →
      ∃ n, (GridRayIter.iterate (GridRayIter.new origin dir tmax cell_size) n).done
        = true) ∧
    (∀ s : GridRayIter, s.done = true → GridRayIter.next s = none) ∧
    (∀ (origin : Vec2) (tmax cell_size : ℚ) (n : ℕ), 0 < cell_size → 1 ≤ n →
      GridRayIter.runYields (GridRayIter.new origin ⟨0, 0⟩ tmax cell_size) n
        = [(⌊origin.x / cell_size⌋, ⌊origin.y / cell_size⌋)]) :=
  ⟨fun origin dir tmax cell_size hcs =>
      ray_terminates (GridRayIter.stepsBound (GridRayIter.new origin dir tmax cell_size))
        (GridRayIter.new origin dir tmax cell_size)
        (ray_WF_new origin dir tmax cell_size hcs) le_rfl,
    ray_next_of_done,
    fun origin tmax cell_size n hcs hn => runYields_zero_dir origin tmax cell_size n hn⟩

/-- Witness for C9: the stationary ray in a 20-unit grid yields exactly its
starting cell. -/
theorem claim_C9_ray_march_finite_witness :
    GridRayIter.runYields (GridRayIter.new ⟨0, 0⟩ ⟨0, 0⟩ 1 20) 2
      = [(⌊(0:ℚ) / 20⌋, ⌊(0:ℚ) / 20⌋)] :=
  claim_C9_ray_march_finite.2.2 ⟨0, 0⟩ 1 20 2 (by norm_num) (by norm_num)

/-- Witness for C10: two empty frames at zero tolerance — no violation. -/
theorem claim_C10_energy_denominator_not_floored_witness :
    ((Validator.check_conservation 0 ⟨1, 0, [], []⟩ ⟨2, 0, [], []⟩).isSome = true ↔
      |((0:ℚ) - 0) / max |(0:ℚ)| (1/1000000)| > 0 ∨
      |((0:ℚ) - 0) / max |(0:ℚ)| (1/1000000)| > 0) :=
  (claim_C10_energy_denominator_not_floored 0 ⟨1, 0, [], []⟩ ⟨2, 0, [], []⟩
    le_rfl rfl).1 rfl

end TCcd
